import Mathlib

/-!
Verification of the result-assembly pipelines of the media-transcriber-cutter
scripts.  Three scripts each reshape a raw ASR-library result into a JSON
transcription document:

* `src/scripts/whisper_simple.py`   — `SimpleWhisperTranscriber.transcribe`
* `src/scripts/whisperx_processor.py` — `transcribe_audio`
* `src/scripts/whisperx_service.py` — `WhisperXTranscriber.transcribe`

Python floats are modelled as exact rationals (`ℚ`), dictionaries returned by
the external libraries as structures whose optional keys are `Option` fields,
and the emitted JSON documents as an explicit `Json` value so that the
presence or absence of a top-level key is part of the model.
-/

/-- A JSON value, as produced by `json.dumps` on the assembled dictionaries. -/
inductive Json where
  | null
  | bool (b : Bool)
  | num (q : ℚ)
  | str (s : String)
  | arr (xs : List Json)
  | obj (fields : List (String × Json))
deriving Repr

/-- Key lookup in a JSON object (first occurrence), `none` on a missing key
or on a non-object. -/
def Json.lookup (j : Json) (key : String) : Option Json :=
  match j with
  | .obj fields => fields.lookup key
  | _ => none

/-- A word entry of a raw library segment.  The libraries always supply
`word`, `start` and `end`; a Whisper word optionally carries `probability`,
a WhisperX word optionally carries `confidence`. -/
structure RawWord where
  word : String
  start : ℚ
  «end» : ℚ
  probability : Option ℚ
  confidence : Option ℚ
deriving Repr, DecidableEq

/-- A raw segment as returned by the external ASR / alignment / diarization
calls.  `start`, `end` and `text` are always present (the scripts index them
directly); `score`, `confidence`, `words` and `speaker` are optional keys. -/
structure RawSegment where
  start : ℚ
  «end» : ℚ
  text : String
  score : Option ℚ
  confidence : Option ℚ
  words : Option (List RawWord)
  speaker : Option String
deriving Repr, DecidableEq

/-- A raw top-level library result: optional detected language and (for the
plain-Whisper path, which reads `result.get("segments", [])`) an optional
segment list. -/
structure RawResult where
  language : Option String
  segments : Option (List RawSegment)
deriving Repr

/-- An assembled word record (`whisper_simple.py` and `whisperx_service.py`
word dictionaries). -/
structure Word where
  word : String
  start : ℚ
  «end» : ℚ
  confidence : ℚ
deriving Repr, DecidableEq

/-- JSON serialization of an assembled word record. -/
def Word.toJson (w : Word) : Json :=
  .obj [("word", .str w.word), ("start", .num w.start),
        ("end", .num w.«end»), ("confidence", .num w.confidence)]

/-- JSON serialization of a raw word dictionary (passed through unchanged by
`whisperx_processor.py`); optional keys are omitted when absent. -/
def RawWord.toJson (w : RawWord) : Json :=
  .obj ([("word", .str w.word), ("start", .num w.start), ("end", .num w.«end»)]
    ++ (match w.probability with | none => [] | some p => [("probability", .num p)])
    ++ (match w.confidence with | none => [] | some c => [("confidence", .num c)]))

/-! ## whisperx_processor.py : `transcribe_audio` -/

/-- One output segment of `whisperx_processor.py` (`id`, `start`, `end`,
`text`, `confidence`, `words`; the `words` key is always present, the raw
word dictionaries are passed through unchanged). -/
structure ProcSegment where
  id : Nat
  start : ℚ
  «end» : ℚ
  text : String
  confidence : ℚ
  words : List RawWord
deriving Repr, DecidableEq

/-- JSON serialization of a processor output segment. -/
def ProcSegment.toJson (s : ProcSegment) : Json :=
  .obj [("id", .num s.id), ("start", .num s.start), ("end", .num s.«end»),
        ("text", .str s.text), ("confidence", .num s.confidence),
        ("words", .arr (s.words.map RawWord.toJson))]

/-- The document built by `whisperx_processor.transcribe_audio`: keys
`language`, `segments`, `confidence` — and no `speakers` key. -/
structure ProcDoc where
  language : String
  segments : List ProcSegment
  confidence : ℚ
deriving Repr

/-- JSON serialization of the processor document (`json.dump` of the
`transcription` dictionary, whose insertion order is `language`, `segments`,
`confidence`). -/
def ProcDoc.toJson (d : ProcDoc) : Json :=
  .obj [("language", .str d.language),
        ("segments", .arr (d.segments.map ProcSegment.toJson)),
        ("confidence", .num d.confidence)]

/-- The loop body of the segment loop in `transcribe_audio`:
`transcription["segments"].append({"id": len(transcription["segments"]),
"start": ..., "end": ..., "text": ....strip(), "confidence":
segment.get("score", 0.0), "words": segment.get("words", [])})`. -/
def procSegStep (acc : List ProcSegment) (seg : RawSegment) : List ProcSegment :=
  acc ++ [{ id := acc.length, start := seg.start, «end» := seg.«end»,
            text := seg.text.trim, confidence := seg.score.getD 0,
            words := seg.words.getD [] }]

/-- The assembly performed by `whisperx_processor.transcribe_audio` on the
aligned result: build the segment list, then set `confidence` to
`total_confidence / len(segments)` when the segment list is non-empty and to
`0.0` otherwise. -/
def transcribe_audio (langOpt : Option String) (segments : List RawSegment) : ProcDoc :=
  let segs := segments.foldl procSegStep []
  { language := langOpt.getD "unknown",
    segments := segs,
    confidence :=
      if segs.isEmpty then 0
      else ((segs.map fun s => s.confidence).sum) / (segs.length : ℚ) }

lemma procLoop_length (l : List RawSegment) :
    ∀ acc : List ProcSegment, (l.foldl procSegStep acc).length = acc.length + l.length := by
  induction l with
  | nil => intro acc; simp
  | cons g t ih =>
      intro acc
      simp only [List.foldl_cons, ih, procSegStep, List.length_append,
        List.length_cons, List.length_nil]
      omega

lemma procLoop_confidences (l : List RawSegment) :
    ∀ acc : List ProcSegment,
      (l.foldl procSegStep acc).map (fun s => s.confidence) =
        acc.map (fun s => s.confidence) ++ l.map (fun g => g.score.getD 0) := by
  induction l with
  | nil => intro acc; simp
  | cons g t ih =>
      intro acc
      simp only [List.foldl_cons, ih, procSegStep, List.map_append, List.map_cons,
        List.map_nil, List.append_assoc, List.map_cons]
      simp

/-- C1: for a non-empty input segment sequence, the `confidence` of the
document assembled by `whisperx_processor.transcribe_audio` is the arithmetic
mean of the per-segment `confidence` values (exactly, in exact rational
arithmetic). -/
theorem transcribe_audio_confidence_is_mean (langOpt : Option String)
    (raw : List RawSegment) (h : raw ≠ []) :
    (transcribe_audio langOpt raw).confidence =
      (((transcribe_audio langOpt raw).segments.map fun s => s.confidence).sum) /
        (((transcribe_audio langOpt raw).segments.length : ℚ)) := by
  have hlen : (raw.foldl procSegStep []).length = raw.length := by
    simpa using procLoop_length raw []
  have hne : ¬ (raw.foldl procSegStep []).isEmpty := by
    simp only [List.isEmpty_iff_length_eq_zero, hlen]
    intro hc
    exact h (List.length_eq_zero.mp hc)
  simp only [transcribe_audio, hne, if_neg, ite_false]
  simp [hne]

/-- Witness for C1 at the concrete one-segment input. -/
def c1seg : RawSegment :=
  { start := 0, «end» := 2, text := "hello", score := some (3/5),
    confidence := none, words := none, speaker := none }

theorem transcribe_audio_confidence_is_mean_witness :
    ([c1seg] ≠ ([] : List RawSegment)) ∧
      (transcribe_audio none [c1seg]).confidence =
        (((transcribe_audio none [c1seg]).segments.map fun s => s.confidence).sum) /
          (((transcribe_audio none [c1seg]).segments.length : ℚ)) :=
  ⟨by simp, transcribe_audio_confidence_is_mean none [c1seg] (by simp)⟩

/-! ## whisper_simple.py : `SimpleWhisperTranscriber.transcribe` -/

/-- One output segment of `whisper_simple.py`: `start`, `end`, trimmed
`text`, `confidence` hardcoded to `1.0`, and a `words` key only when the raw
segment carries one. -/
structure SimpleSegment where
  start : ℚ
  «end» : ℚ
  text : String
  confidence : ℚ
  words : Option (List Word)
deriving Repr, DecidableEq

/-- JSON serialization of a `whisper_simple.py` output segment (the `words`
key is present only when word-level data was attached). -/
def SimpleSegment.toJson (s : SimpleSegment) : Json :=
  .obj ([("start", .num s.start), ("end", .num s.«end»), ("text", .str s.text),
         ("confidence", .num s.confidence)]
    ++ (match s.words with
        | none => []
        | some ws => [("words", .arr (ws.map Word.toJson))]))

/-- Per-speaker statistics accumulated by `whisperx_service.py`
(`{"id": ..., "segments": 0, "total_duration": 0}` entries of the
`speaker_stats` dictionary). -/
structure SpeakerStat where
  id : String
  segments : Nat
  total_duration : ℚ
deriving Repr, DecidableEq

/-- JSON serialization of a speaker statistics entry. -/
def SpeakerStat.toJson (s : SpeakerStat) : Json :=
  .obj [("id", .str s.id), ("segments", .num s.segments),
        ("total_duration", .num s.total_duration)]

/-- The document built by `whisper_simple.py`: keys `language`, `segments`
and an always-empty `speakers` — and no top-level `confidence` key. -/
structure SimpleDoc where
  language : String
  segments : List SimpleSegment
  speakers : List SpeakerStat
deriving Repr

/-- JSON serialization of the `whisper_simple.py` document. -/
def SimpleDoc.toJson (d : SimpleDoc) : Json :=
  .obj [("language", .str d.language),
        ("segments", .arr (d.segments.map SimpleSegment.toJson)),
        ("speakers", .arr (d.speakers.map SpeakerStat.toJson))]

/-- Word mapping of `whisper_simple.py`: confidence comes from
`word.get("probability", 1.0)`.  (The `word`/`start`/`end` keys are always
present in the raw data, so their `.get` defaults never fire.) -/
def simpleWord (w : RawWord) : Word :=
  { word := w.word, start := w.start, «end» := w.«end»,
    confidence := w.probability.getD 1 }

/-- Segment mapping of `whisper_simple.py`: text is trimmed, segment
confidence is the constant `1.0` (`# Whisper doesn't provide confidence
scores`), and `words` is attached only `if "words" in segment`. -/
def simpleSegment (seg : RawSegment) : SimpleSegment :=
  { start := seg.start, «end» := seg.«end», text := seg.text.trim,
    confidence := 1,
    words := seg.words.map (List.map simpleWord) }

/-- `SimpleWhisperTranscriber.transcribe`, from the point where the external
Whisper result is reshaped: language from `result.get("language",
"unknown")`, the segment loop over `result.get("segments", [])` (which only
appends, hence a map), and `"speakers": []`. -/
def SimpleWhisperTranscriber.transcribe (result : RawResult) : SimpleDoc :=
  { language := result.language.getD "unknown",
    segments := (result.segments.getD []).map simpleSegment,
    speakers := [] }

/-! ## whisperx_service.py : `WhisperXTranscriber.transcribe` -/

/-- One output segment of `whisperx_service.py`: `start`, `end`, trimmed
`text`, `confidence` from `segment.get("confidence", 1.0)`, a `speaker` key
when the raw segment carries one, and a `words` key when it carries
word-level data. -/
structure ServiceSegment where
  start : ℚ
  «end» : ℚ
  text : String
  confidence : ℚ
  speaker : Option String
  words : Option (List Word)
deriving Repr, DecidableEq

/-- JSON serialization of a `whisperx_service.py` output segment (optional
keys omitted when absent; dictionary insertion order `start`, `end`, `text`,
`confidence`, `speaker`, `words`). -/
def ServiceSegment.toJson (s : ServiceSegment) : Json :=
  .obj ([("start", .num s.start), ("end", .num s.«end»), ("text", .str s.text),
         ("confidence", .num s.confidence)]
    ++ (match s.speaker with | none => [] | some sp => [("speaker", .str sp)])
    ++ (match s.words with
        | none => []
        | some ws => [("words", .arr (ws.map Word.toJson))]))

/-- The document built by `whisperx_service.py`: keys `language`, `segments`,
`speakers` — and no top-level `confidence` key. -/
structure ServiceDoc where
  language : String
  segments : List ServiceSegment
  speakers : List SpeakerStat
deriving Repr

/-- JSON serialization of the `whisperx_service.py` document. -/
def ServiceDoc.toJson (d : ServiceDoc) : Json :=
  .obj [("language", .str d.language),
        ("segments", .arr (d.segments.map ServiceSegment.toJson)),
        ("speakers", .arr (d.speakers.map SpeakerStat.toJson))]

/-- Word mapping of `whisperx_service.py`: `word["word"]`, `word["start"]`,
`word["end"]` indexed directly, confidence from
`word.get("confidence", 1.0)`. -/
def serviceWord (w : RawWord) : Word :=
  { word := w.word, start := w.start, «end» := w.«end»,
    confidence := w.confidence.getD 1 }

/-- Segment mapping of `whisperx_service.py` (the `seg_data` dictionary):
trimmed text, confidence from `segment.get("confidence", 1.0)`, optional
speaker, optional mapped word list. -/
def serviceSegment (seg : RawSegment) : ServiceSegment :=
  { start := seg.start, «end» := seg.«end», text := seg.text.trim,
    confidence := seg.confidence.getD 1,
    speaker := seg.speaker,
    words := seg.words.map (List.map serviceWord) }

/-- The `speaker_stats` update performed for one raw segment: if the segment
carries a `speaker` key, a fresh `{"id": sp, "segments": 0,
"total_duration": 0}` entry is inserted when the id is not yet a key of the
dictionary, and then the entry's `segments` is incremented and
`segment["end"] - segment["start"]` is added to its `total_duration`.  The
insertion-ordered Python dictionary is modelled as a list of entries in
insertion order; `bumpStat` is the in-place update of the entry keyed by
`sp`. -/
def bumpStat (sp : String) (d : ℚ) (s : SpeakerStat) : SpeakerStat :=
  if s.id = sp then
    { id := s.id, segments := s.segments + 1, total_duration := s.total_duration + d }
  else s

/-- See `bumpStat` for the per-entry update. -/
def foldStats (stats : List SpeakerStat) (seg : RawSegment) : List SpeakerStat :=
  match seg.speaker with
  | none => stats
  | some sp =>
      let stats1 := if sp ∈ stats.map (fun s => s.id) then stats
                    else stats ++ [{ id := sp, segments := 0, total_duration := 0 }]
      stats1.map (bumpStat sp (seg.«end» - seg.start))

/-- The single pass of `WhisperXTranscriber.transcribe` over
`result["segments"]`: append the mapped `seg_data` and fold the segment into
`speaker_stats`. -/
def serviceStep (acc : List ServiceSegment × List SpeakerStat) (seg : RawSegment) :
    List ServiceSegment × List SpeakerStat :=
  (acc.1 ++ [serviceSegment seg], foldStats acc.2 seg)

/-- The output-formatting part of `WhisperXTranscriber.transcribe` (the
`# Format output` block): run the segment loop, then
`output["speakers"] = list(speaker_stats.values())`. -/
def WhisperXTranscriber.formatOutput (detected_language : Option String)
    (segments : List RawSegment) : ServiceDoc :=
  let r := segments.foldl serviceStep ([], [])
  { language := detected_language.getD "unknown",
    segments := r.1,
    speakers := r.2 }

/-- A handle to the external diarization pipeline
(`whisperx.DiarizationPipeline(use_auth_token=..., device=...)`). -/
structure DiarizationPipeline where
  use_auth_token : String
deriving Repr

/-- `WhisperXTranscriber.transcribe` from alignment onwards: when diarization
is enabled and a diarization model is loaded, the aligned segments are
replaced by the output of the external
`whisperx.assign_word_speakers(diarize_segments, result)` call (modelled as
the function `assign_word_speakers` applied to the aligned segments); the
result is then formatted. -/
def WhisperXTranscriber.transcribe (diarize_model : Option DiarizationPipeline)
    (enable_diarization : Bool) (detected_language : Option String)
    (aligned : List RawSegment)
    (assign_word_speakers : List RawSegment → List RawSegment) : ServiceDoc :=
  let result :=
    if enable_diarization && diarize_model.isSome then assign_word_speakers aligned
    else aligned
  WhisperXTranscriber.formatOutput detected_language result

/-- `WhisperXTranscriber.load_diarization_model`: fall back to the `HF_TOKEN`
environment variable, warn and return `False` (model left unset) when no
token is available, otherwise attempt the external pipeline construction,
warning and returning `False` when it raises.  Returns
(return value, resulting `diarize_model`, stderr lines). -/
def WhisperXTranscriber.load_diarization_model (hf_token env_token : Option String)
    (pipeline_load : Except String DiarizationPipeline) :
    Bool × Option DiarizationPipeline × List String :=
  let tok := match hf_token with | none => env_token | some t => some t
  match tok with
  | none =>
      (false, none,
        ["Warning: No Hugging Face token provided. Speaker diarization will be disabled."])
  | some _ =>
      match pipeline_load with
      | .ok p => (true, some p, ["Loading speaker diarization model..."])
      | .error e =>
          (false, none,
            ["Loading speaker diarization model...",
             "Failed to load diarization model: " ++ e])

/-! ## Speaker statistics: correctness of the `speaker_stats` fold -/

/-- Number of input segments carrying speaker id `sp`. -/
def speakerCount (sp : String) (l : List RawSegment) : Nat :=
  l.countP (fun g => g.speaker == some sp)

/-- Sum of `end - start` over the input segments carrying speaker id `sp`. -/
def speakerDuration (sp : String) (l : List RawSegment) : ℚ :=
  ((l.filter (fun g => g.speaker == some sp)).map (fun g => g.«end» - g.start)).sum

lemma bumpStat_id (sp : String) (d : ℚ) (s : SpeakerStat) :
    (bumpStat sp d s).id = s.id := by
  unfold bumpStat; split <;> rfl

lemma find?_map_bumpStat (sp q : String) (d : ℚ) (l : List SpeakerStat) :
    (l.map (bumpStat sp d)).find? (fun s => s.id == q) =
      (l.find? (fun s => s.id == q)).map (bumpStat sp d) := by
  induction l with
  | nil => simp
  | cons a t ih =>
      by_cases h : a.id = q
      · rw [List.map_cons, List.find?_cons_of_pos _ (by simp [bumpStat_id, h]),
          List.find?_cons_of_pos _ (by simp [h]), Option.map_some']
      · rw [List.map_cons, List.find?_cons_of_neg _ (by simp [bumpStat_id, h]),
          List.find?_cons_of_neg _ (by simp [h]), ih]

lemma map_id_map_bumpStat (sp : String) (d : ℚ) (l : List SpeakerStat) :
    (l.map (bumpStat sp d)).map (fun s => s.id) = l.map (fun s => s.id) := by
  simp [List.map_map, Function.comp_def, bumpStat_id]

lemma speakerCount_cons (sp : String) (g : RawSegment) (t : List RawSegment) :
    speakerCount sp (g :: t) =
      speakerCount sp t + (if g.speaker = some sp then 1 else 0) := by
  simp [speakerCount, List.countP_cons]

lemma speakerDuration_cons (sp : String) (g : RawSegment) (t : List RawSegment) :
    speakerDuration sp (g :: t) =
      (if g.speaker = some sp then g.«end» - g.start else 0) + speakerDuration sp t := by
  by_cases h : g.speaker = some sp
  · simp [speakerDuration, List.filter_cons, h]
  · simp [speakerDuration, List.filter_cons, h]

/-- Main invariant of the `speaker_stats` fold: the entry found for a speaker
id after folding a list of raw segments over an arbitrary starting dictionary. -/
lemma foldl_foldStats_find (l : List RawSegment) :
    ∀ (stats : List SpeakerStat) (sp : String),
      ((l.foldl foldStats stats).find? (fun s => s.id == sp)) =
        match stats.find? (fun s => s.id == sp) with
        | some s => some { id := s.id, segments := s.segments + speakerCount sp l,
                           total_duration := s.total_duration + speakerDuration sp l }
        | none =>
            if speakerCount sp l = 0 then none
            else some { id := sp, segments := speakerCount sp l,
                        total_duration := speakerDuration sp l } := by
  induction l with
  | nil =>
      intro stats sp
      cases h : stats.find? (fun s => s.id == sp) with
      | none => simp [h, speakerCount, speakerDuration]
      | some s => simp [h, speakerCount, speakerDuration]
  | cons g t ih =>
      intro stats sp
      rw [List.foldl_cons, ih (foldStats stats g) sp]
      cases hsp : g.speaker with
      | none =>
          have hstats : foldStats stats g = stats := by simp [foldStats, hsp]
          rw [hstats]
          cases hfind : stats.find? (fun s => s.id == sp) with
          | none =>
              simp [hfind, speakerCount_cons, speakerDuration_cons, hsp]
          | some s =>
              simp [hfind, speakerCount_cons, speakerDuration_cons, hsp]
      | some sp0 =>
          by_cases hEq : sp0 = sp
          · have hEq' : sp = sp0 := hEq.symm
            subst hEq'
            by_cases hMem : sp ∈ stats.map (fun s => s.id)
            · obtain ⟨s, hs⟩ : ∃ s, stats.find? (fun s => s.id == sp) = some s := by
                rw [← Option.isSome_iff_exists, List.find?_isSome]
                obtain ⟨x, hx, hid⟩ := List.mem_map.mp hMem
                exact ⟨x, hx, by simp [hid]⟩
              have hsid : s.id = sp := by simpa using List.find?_some hs
              have hform : foldStats stats g =
                  stats.map (bumpStat sp (g.«end» - g.start)) := by
                simp only [foldStats, hsp]
                rw [if_pos hMem]
              have hscrut : (foldStats stats g).find? (fun s => s.id == sp) =
                  some { id := s.id, segments := s.segments + 1,
                         total_duration := s.total_duration + (g.«end» - g.start) } := by
                rw [hform, find?_map_bumpStat, hs, Option.map_some']
                congr 1
                simp [bumpStat, hsid]
              rw [hscrut, hs, speakerCount_cons, speakerDuration_cons]
              simp only [hsp, if_pos, Option.some.injEq, SpeakerStat.mk.injEq,
                ite_true]
              refine ⟨trivial, by omega, by ring_nf⟩
            · have hnone : stats.find? (fun s => s.id == sp) = none := by
                rw [List.find?_eq_none]
                intro x hx
                simp only [beq_iff_eq]
                intro hxid
                exact hMem (List.mem_map.mpr ⟨x, hx, hxid⟩)
              have hform : foldStats stats g =
                  (stats ++ [({ id := sp, segments := 0, total_duration := 0 } : SpeakerStat)]).map
                    (bumpStat sp (g.«end» - g.start)) := by
                simp only [foldStats, hsp]
                rw [if_neg hMem]
              have hscrut : (foldStats stats g).find? (fun s => s.id == sp) =
                  some { id := sp, segments := 1,
                         total_duration := g.«end» - g.start } := by
                rw [hform, find?_map_bumpStat, List.find?_append, hnone,
                  Option.none_or, List.find?_cons_of_pos _ (by simp),
                  Option.map_some']
                congr 1
                simp [bumpStat]
              rw [hscrut, hnone, speakerCount_cons, speakerDuration_cons]
              simp only [hsp, Option.some.injEq, SpeakerStat.mk.injEq, ite_true]
              rw [if_neg (by omega)]
              simp only [Option.some.injEq, SpeakerStat.mk.injEq]
              refine ⟨trivial, by omega, by ring_nf⟩
          · have hfind : (foldStats stats g).find? (fun s => s.id == sp) =
                stats.find? (fun s => s.id == sp) := by
              by_cases hMem : sp0 ∈ stats.map (fun s => s.id)
              · have hform : foldStats stats g =
                    stats.map (bumpStat sp0 (g.«end» - g.start)) := by
                  simp only [foldStats, hsp]
                  rw [if_pos hMem]
                rw [hform, find?_map_bumpStat]
                cases hs : stats.find? (fun s => s.id == sp) with
                | none => simp
                | some s =>
                    have hsid : s.id = sp := by simpa using List.find?_some hs
                    have hbs : bumpStat sp0 (g.«end» - g.start) s = s := by
                      have hne : ¬ (s.id = sp0) := by
                        rw [hsid]; exact fun hcon => hEq hcon.symm
                      simp [bumpStat, hne]
                    simp [hbs]
              · have hform : foldStats stats g =
                    (stats ++ [({ id := sp0, segments := 0, total_duration := 0 } : SpeakerStat)]).map
                      (bumpStat sp0 (g.«end» - g.start)) := by
                  simp only [foldStats, hsp]
                  rw [if_neg hMem]
                rw [hform, find?_map_bumpStat, List.find?_append,
                  List.find?_cons_of_neg _ (by simp [hEq]), List.find?_nil,
                  Option.or_none]
                cases hs : stats.find? (fun s => s.id == sp) with
                | none => simp
                | some s =>
                    have hsid : s.id = sp := by simpa using List.find?_some hs
                    have hbs : bumpStat sp0 (g.«end» - g.start) s = s := by
                      have hne : ¬ (s.id = sp0) := by
                        rw [hsid]; exact fun hcon => hEq hcon.symm
                      simp [bumpStat, hne]
                    simp [hbs]
            rw [hfind]
            cases hs : stats.find? (fun s => s.id == sp) with
            | none =>
                simp [hs, speakerCount_cons, speakerDuration_cons, hsp, hEq]
            | some s =>
                simp [hs, speakerCount_cons, speakerDuration_cons, hsp, hEq]

lemma foldl_serviceStep_snd (l : List RawSegment) :
    ∀ (a : List ServiceSegment) (b : List SpeakerStat),
      (l.foldl serviceStep (a, b)).2 = l.foldl foldStats b := by
  induction l with
  | nil => intro a b; rfl
  | cons g t ih => intro a b; simp [List.foldl_cons, serviceStep, ih]

lemma foldl_serviceStep_fst (l : List RawSegment) :
    ∀ (a : List ServiceSegment) (b : List SpeakerStat),
      (l.foldl serviceStep (a, b)).1 = a ++ l.map serviceSegment := by
  induction l with
  | nil => intro a b; simp
  | cons g t ih => intro a b; simp [List.foldl_cons, serviceStep, ih]

/-- C3: for every speaker id appearing in the input segments, the entry of
the `speakers` list produced by `WhisperXTranscriber.transcribe` for that id
records exactly the number of input segments carrying the id and the sum of
`end - start` over those segments. -/
theorem speaker_stats_correct (detected_language : Option String)
    (raw : List RawSegment) (sp : String)
    (h : ∃ g ∈ raw, g.speaker = some sp) :
    ((WhisperXTranscriber.formatOutput detected_language raw).speakers.find?
        (fun s => s.id == sp)) =
      some { id := sp, segments := speakerCount sp raw,
             total_duration := speakerDuration sp raw } := by
  have hpos : 0 < speakerCount sp raw := by
    rw [speakerCount, List.countP_pos_iff]
    obtain ⟨g, hg, hgs⟩ := h
    exact ⟨g, hg, by simp [hgs]⟩
  have hspeakers : (WhisperXTranscriber.formatOutput detected_language raw).speakers =
      raw.foldl foldStats [] := by
    simp [WhisperXTranscriber.formatOutput, foldl_serviceStep_snd]
  rw [hspeakers, foldl_foldStats_find raw [] sp]
  simp only [List.find?_nil]
  rw [if_neg (by omega)]

/-- Witness input for C3: two segments carrying the same speaker id. -/
def c3seg1 : RawSegment :=
  { start := 0, «end» := 1, text := "a", score := none, confidence := none,
    words := none, speaker := some "SPEAKER_00" }

def c3seg2 : RawSegment :=
  { start := 1, «end» := 3, text := "b", score := none, confidence := none,
    words := none, speaker := some "SPEAKER_00" }

theorem speaker_stats_correct_witness :
    (∃ g ∈ [c3seg1, c3seg2], g.speaker = some "SPEAKER_00") ∧
      ((WhisperXTranscriber.formatOutput none [c3seg1, c3seg2]).speakers.find?
          (fun s => s.id == "SPEAKER_00")) =
        some { id := "SPEAKER_00", segments := 2, total_duration := 3 } := by
  refine ⟨⟨c3seg1, by simp, rfl⟩, ?_⟩
  have h := speaker_stats_correct none [c3seg1, c3seg2] "SPEAKER_00"
    ⟨c3seg1, by simp, rfl⟩
  rw [h]
  norm_num [speakerCount, speakerDuration, c3seg1, c3seg2, List.countP_cons]

/-! ## Order preservation -/

/-- The first-appearance order of a list of speaker ids (the insertion order
of the keys of the `speaker_stats` dictionary). -/
def firstAppearanceOrder (l : List String) : List String :=
  l.foldl (fun acc x => if x ∈ acc then acc else acc ++ [x]) []

lemma foldl_foldStats_ids (l : List RawSegment) :
    ∀ stats : List SpeakerStat,
      (l.foldl foldStats stats).map (fun s => s.id) =
        (l.filterMap (fun g => g.speaker)).foldl
          (fun acc x => if x ∈ acc then acc else acc ++ [x])
          (stats.map (fun s => s.id)) := by
  induction l with
  | nil => intro stats; simp
  | cons g t ih =>
      intro stats
      rw [List.foldl_cons, ih]
      cases hsp : g.speaker with
      | none =>
          have hstats : foldStats stats g = stats := by simp [foldStats, hsp]
          rw [hstats, List.filterMap_cons_none hsp]
      | some sp =>
          have hform : (foldStats stats g).map (fun s => s.id) =
              if sp ∈ stats.map (fun s => s.id) then stats.map (fun s => s.id)
              else stats.map (fun s => s.id) ++ [sp] := by
            by_cases hMem : sp ∈ stats.map (fun s => s.id)
            · simp only [foldStats, hsp]
              rw [if_pos hMem, if_pos hMem, map_id_map_bumpStat]
            · simp only [foldStats, hsp]
              rw [if_neg hMem, if_neg hMem, map_id_map_bumpStat]
              simp
          rw [hform, List.filterMap_cons_some hsp, List.foldl_cons]

/-- C4: the `whisperx_service.py` output segment list is the input list
mapped in order (the i-th output segment is assembled from the i-th input
segment), its `speakers` list is in first-appearance order of the speaker
ids, and the `whisper_simple.py` output segment list likewise preserves the
input order. -/
theorem order_preservation (detected_language : Option String)
    (raw : List RawSegment) (res : RawResult) :
    (WhisperXTranscriber.formatOutput detected_language raw).segments =
        raw.map serviceSegment ∧
      (WhisperXTranscriber.formatOutput detected_language raw).speakers.map
          (fun s => s.id) =
        firstAppearanceOrder (raw.filterMap (fun g => g.speaker)) ∧
      (SimpleWhisperTranscriber.transcribe res).segments =
        (res.segments.getD []).map simpleSegment := by
  refine ⟨?_, ?_, rfl⟩
  · simpa [WhisperXTranscriber.formatOutput] using foldl_serviceStep_fst raw [] []
  · have h := foldl_foldStats_ids raw []
    simpa [WhisperXTranscriber.formatOutput, foldl_serviceStep_snd,
      firstAppearanceOrder] using h

/-! ## Empty-input documents (C2) -/

/-- C2 as frozen is false on the code: the `whisperx_processor.py` document
for an empty segment sequence has confidence `0.0` and an empty `segments`
list, but its schema carries no `speakers` key at all, so it does not have
an empty `speakers` list. -/
theorem empty_input_claim_counterexample :
    ¬ ( (transcribe_audio none []).toJson.lookup "confidence" = some (Json.num 0) ∧
        (transcribe_audio none []).toJson.lookup "segments" = some (Json.arr []) ∧
        (transcribe_audio none []).toJson.lookup "speakers" = some (Json.arr []) ) := by
  intro h
  have h3 := h.2.2
  have hnone : (transcribe_audio none []).toJson.lookup "speakers" = none := rfl
  rw [hnone] at h3
  exact Option.noConfusion h3

/-- C2 amended: for an empty input segment sequence, the
`whisperx_processor.py` document has confidence exactly `0.0` and an empty
segments list (no `speakers` key); the `whisperx_service.py` and
`whisper_simple.py` documents have empty segments and empty speakers lists
(no top-level `confidence` key). -/
theorem empty_input_documents :
    (transcribe_audio none []).toJson.lookup "confidence" = some (Json.num 0) ∧
    (transcribe_audio none []).toJson.lookup "segments" = some (Json.arr []) ∧
    (transcribe_audio none []).toJson.lookup "speakers" = none ∧
    (WhisperXTranscriber.formatOutput none []).toJson.lookup "segments" =
        some (Json.arr []) ∧
    (WhisperXTranscriber.formatOutput none []).toJson.lookup "speakers" =
        some (Json.arr []) ∧
    (WhisperXTranscriber.formatOutput none []).toJson.lookup "confidence" = none ∧
    (SimpleWhisperTranscriber.transcribe
        { language := none, segments := some [] }).toJson.lookup "segments" =
        some (Json.arr []) ∧
    (SimpleWhisperTranscriber.transcribe
        { language := none, segments := some [] }).toJson.lookup "speakers" =
        some (Json.arr []) ∧
    (SimpleWhisperTranscriber.transcribe
        { language := none, segments := some [] }).toJson.lookup "confidence" = none :=
  ⟨rfl, rfl, rfl, rfl, rfl, rfl, rfl, rfl, rfl⟩

/-! ## Confidence-normalization policies (C5, C6) -/

/-- C5: every assembler trims the segment text; under the Whisper
(score-default) policy — `whisper_simple.py`, which hardcodes `1.0`, and
`whisperx_service.py`, which reads `segment.get("confidence", 1.0)` — a
missing confidence value yields `1.0`, while under the WhisperX
(score-passthrough) policy — `whisperx_processor.py`, which reads
`segment.get("score", 0.0)` — the external alignment score is used when
present. -/
theorem confidence_normalization_policies (seg : RawSegment)
    (acc : List ProcSegment) (q : ℚ)
    (hmiss : seg.confidence = none) (hscore : seg.score = some q) :
    (simpleSegment seg).text = seg.text.trim ∧
    (serviceSegment seg).text = seg.text.trim ∧
    (simpleSegment seg).confidence = 1 ∧
    (serviceSegment seg).confidence = 1 ∧
    procSegStep acc seg = acc ++
      [{ id := acc.length, start := seg.start, «end» := seg.«end»,
         text := seg.text.trim, confidence := q,
         words := seg.words.getD [] }] := by
  refine ⟨rfl, rfl, rfl, ?_, ?_⟩
  · simp [serviceSegment, hmiss]
  · simp [procSegStep, hscore]

/-- Witness input for C5: a segment whose raw dictionary has an alignment
score but no confidence key. -/
def c5seg : RawSegment :=
  { start := 0, «end» := 1, text := " hi ", score := some (1/2),
    confidence := none, words := none, speaker := none }

theorem confidence_normalization_policies_witness :
    c5seg.confidence = none ∧ c5seg.score = some (1/2) ∧
      ((simpleSegment c5seg).text = c5seg.text.trim ∧
       (serviceSegment c5seg).text = c5seg.text.trim ∧
       (simpleSegment c5seg).confidence = 1 ∧
       (serviceSegment c5seg).confidence = 1 ∧
       procSegStep [] c5seg = ([] : List ProcSegment) ++
         [{ id := ([] : List ProcSegment).length, start := c5seg.start, «end» := c5seg.«end»,
            text := c5seg.text.trim, confidence := 1/2,
            words := c5seg.words.getD [] }]) :=
  ⟨rfl, rfl, confidence_normalization_policies c5seg [] (1/2) rfl rfl⟩

/-- C6: word-level data is mapped in order into word records; a missing
per-word confidence (`word.get("probability", 1.0)`) defaults to `1.0` on
the `whisper_simple.py` path, while on the `whisperx_service.py` diarized
path a present per-word confidence (`word.get("confidence", 1.0)`) is
passed through unchanged, and `whisperx_processor.py` passes the raw word
list through untouched. -/
theorem word_confidence_policies (seg : RawSegment) (ws : List RawWord)
    (w : RawWord) (c : ℚ)
    (hws : seg.words = some ws) (hprob : w.probability = none)
    (hconf : w.confidence = some c) :
    (simpleSegment seg).words = some (ws.map simpleWord) ∧
    (serviceSegment seg).words = some (ws.map serviceWord) ∧
    (simpleWord w).confidence = 1 ∧
    (serviceWord w).confidence = c ∧
    (procSegStep [] seg).map (fun s => s.words) = [ws] := by
  refine ⟨?_, ?_, ?_, ?_, ?_⟩
  · simp [simpleSegment, hws]
  · simp [serviceSegment, hws]
  · simp [simpleWord, hprob]
  · simp [serviceWord, hconf]
  · simp [procSegStep, hws]

/-- Witness inputs for C6: a word with a `confidence` key but no
`probability` key, inside a segment carrying word-level data. -/
def c6word : RawWord :=
  { word := "hey", start := 0, «end» := 1, probability := none,
    confidence := some (3/4) }

def c6seg : RawSegment :=
  { start := 0, «end» := 1, text := "hey", score := none, confidence := none,
    words := some [c6word], speaker := none }

theorem word_confidence_policies_witness :
    c6seg.words = some [c6word] ∧ c6word.probability = none ∧
      c6word.confidence = some (3/4) ∧
      ((simpleSegment c6seg).words = some ([c6word].map simpleWord) ∧
       (serviceSegment c6seg).words = some ([c6word].map serviceWord) ∧
       (simpleWord c6word).confidence = 1 ∧
       (serviceWord c6word).confidence = 3/4 ∧
       (procSegStep [] c6seg).map (fun s => s.words) = [[c6word]]) :=
  ⟨rfl, rfl, rfl, word_confidence_policies c6seg [c6word] c6word (3/4) rfl rfl rfl⟩

/-! ## Error handling (C7, C8) -/

/-- One line printed on stdout: either a compact JSON document or a
human-readable text line. -/
inductive OutLine where
  | jsonLine (j : Json)
  | textLine (s : String)
deriving Repr

/-- The observable outcome of one process invocation: exit code, stdout
lines, and the files written (path paired with the serialized content).
Progress and log messages go to stderr and are not part of this record. -/
structure RunOutput where
  exitCode : Nat
  stdout : List OutLine
  fileWrites : List (String × Json)
deriving Repr

/-- The `{"error": str(e), "success": False}` document printed by the
`except` blocks of the two `process_file` methods. -/
def errorJson (e : String) : Json :=
  .obj [("error", .str e), ("success", .bool false)]

/-- `SimpleWhisperTranscriber.process_file`: on success the document is
written to the output file and printed as one JSON line on stdout, returning
`True`; when `self.transcribe` raises, the error document is printed on
stdout, nothing is written, and `False` is returned.  The outcome of the
`transcribe` call (which performs the external model calls) is passed in as
an `Except` value. -/
def SimpleWhisperTranscriber.process_file (output_path : String)
    (tr : Except String SimpleDoc) : Bool × List OutLine × List (String × Json) :=
  match tr with
  | .ok doc => (true, [.jsonLine doc.toJson], [(output_path, doc.toJson)])
  | .error e => (false, [.jsonLine (errorJson e)], [])

/-- `WhisperXTranscriber.process_file`: identical control flow to the simple
script's `process_file`, for the service document type. -/
def WhisperXTranscriber.process_file (output_path : String)
    (tr : Except String ServiceDoc) : Bool × List OutLine × List (String × Json) :=
  match tr with
  | .ok doc => (true, [.jsonLine doc.toJson], [(output_path, doc.toJson)])
  | .error e => (false, [.jsonLine (errorJson e)], [])

/-- `main` of `whisper_simple.py`: model loading happens in the class
constructor, outside any `try` block, so a loading failure propagates as an
uncaught exception (traceback on stderr, exit code 1, nothing on stdout);
otherwise `process_file` runs and `sys.exit(0 if success else 1)` is
executed. -/
def simple_main (output_path : String) (load_model : Except String Unit)
    (tr : Except String SimpleDoc) : RunOutput :=
  match load_model with
  | .error _ => { exitCode := 1, stdout := [], fileWrites := [] }
  | .ok _ =>
      let r := SimpleWhisperTranscriber.process_file output_path tr
      { exitCode := if r.1 then 0 else 1, stdout := r.2.1, fileWrites := r.2.2 }

/-- `main` of `whisperx_service.py`: same structure as `simple_main`. -/
def service_main (output_path : String) (load_model : Except String Unit)
    (tr : Except String ServiceDoc) : RunOutput :=
  match load_model with
  | .error _ => { exitCode := 1, stdout := [], fileWrites := [] }
  | .ok _ =>
      let r := WhisperXTranscriber.process_file output_path tr
      { exitCode := if r.1 then 0 else 1, stdout := r.2.1, fileWrites := r.2.2 }

/-- `main` of `whisperx_processor.py`: on success the document is printed
as JSON when `--json` was given and as human-readable summary lines
otherwise (the file write inside `transcribe_audio` happens only when
`--output-dir` was given); when `transcribe_audio` raises, the error is
logged to stderr and the process exits 1 — nothing is printed on stdout and
nothing is written. -/
def whisperx_processor_main (output_dir : Option String) (jsonFlag : Bool)
    (tr : Except String ProcDoc) : RunOutput :=
  match tr with
  | .error _ => { exitCode := 1, stdout := [], fileWrites := [] }
  | .ok doc =>
      { exitCode := 0,
        stdout :=
          if jsonFlag then [.jsonLine doc.toJson]
          else [.textLine "Transcription complete!",
                .textLine ("Language: " ++ doc.language),
                .textLine ("Segments: " ++ toString doc.segments.length),
                .textLine ("Confidence: " ++ toString doc.confidence)],
        fileWrites := match output_dir with
          | some dir => [(dir, doc.toJson)]
          | none => [] }

/-- C7 as frozen is false on the code: in `whisperx_processor.py` a failed
capability call is logged to stderr and the process exits 1 without emitting
any JSON error document on stdout. -/
theorem capability_error_claim_counterexample :
    (whisperx_processor_main none true (Except.error "model load failed")).stdout = [] ∧
      (whisperx_processor_main none true (Except.error "model load failed")).exitCode = 1 :=
  ⟨rfl, rfl⟩

/-- C7 amended: when a capability call raises inside `process_file`, the
`whisper_simple.py` and `whisperx_service.py` scripts print exactly one JSON
error document `{"error": msg, "success": false}` on stdout, write nothing
to the output file, and exit 1; the `whisperx_processor.py` script exits 1
with nothing on stdout and no file write; and a model-load failure in the
two class-based scripts propagates uncaught (exit 1, no JSON document). -/
theorem capability_error_handling (e le out : String) (tr : Except String SimpleDoc)
    (trs : Except String ServiceDoc) (dir : Option String) (jsonFlag : Bool) :
    simple_main out (.ok ()) (.error e) =
      { exitCode := 1, stdout := [.jsonLine (errorJson e)], fileWrites := [] } ∧
    service_main out (.ok ()) (.error e) =
      { exitCode := 1, stdout := [.jsonLine (errorJson e)], fileWrites := [] } ∧
    whisperx_processor_main dir jsonFlag (.error e) =
      { exitCode := 1, stdout := [], fileWrites := [] } ∧
    simple_main out (.error le) tr =
      { exitCode := 1, stdout := [], fileWrites := [] } ∧
    service_main out (.error le) trs =
      { exitCode := 1, stdout := [], fileWrites := [] } :=
  ⟨rfl, rfl, rfl, rfl, rfl⟩

/-- C8: when no Hugging Face token is provided (argument and environment
both absent) or the external diarization pipeline construction raises,
`load_diarization_model` warns on stderr and returns `False` leaving
`self.diarize_model` unset, and a subsequent `transcribe` call still
produces the normal assembled document from the aligned segments. -/
theorem diarization_degrades_gracefully (hf env : Option String)
    (pl : Except String DiarizationPipeline) (detected_language : Option String)
    (aligned : List RawSegment)
    (assign_word_speakers : List RawSegment → List RawSegment)
    (h : (hf = none ∧ env = none) ∨ ∃ e, pl = Except.error e) :
    (WhisperXTranscriber.load_diarization_model hf env pl).1 = false ∧
    (WhisperXTranscriber.load_diarization_model hf env pl).2.1 = none ∧
    (WhisperXTranscriber.load_diarization_model hf env pl).2.2 ≠ [] ∧
    WhisperXTranscriber.transcribe
        (WhisperXTranscriber.load_diarization_model hf env pl).2.1 true
        detected_language aligned assign_word_speakers =
      WhisperXTranscriber.formatOutput detected_language aligned := by
  have hres : (WhisperXTranscriber.load_diarization_model hf env pl).2.1 = none ∧
      (WhisperXTranscriber.load_diarization_model hf env pl).1 = false ∧
      (WhisperXTranscriber.load_diarization_model hf env pl).2.2 ≠ [] := by
    rcases h with ⟨h1, h2⟩ | ⟨e, he⟩
    · subst h1; subst h2
      refine ⟨rfl, rfl, by simp [WhisperXTranscriber.load_diarization_model]⟩
    · subst he
      cases hf with
      | none =>
          cases env with
          | none =>
              refine ⟨rfl, rfl, by simp [WhisperXTranscriber.load_diarization_model]⟩
          | some t =>
              refine ⟨rfl, rfl, by simp [WhisperXTranscriber.load_diarization_model]⟩
      | some t =>
          refine ⟨rfl, rfl, by simp [WhisperXTranscriber.load_diarization_model]⟩
  refine ⟨hres.2.1, hres.1, hres.2.2, ?_⟩
  rw [WhisperXTranscriber.transcribe, hres.1]
  simp

/-- Witness input for C8. -/
def c8seg : RawSegment :=
  { start := 0, «end» := 1, text := "x", score := none, confidence := none,
    words := none, speaker := none }

/-- Witness for C8: no token anywhere, diarization pipeline construction
would have succeeded. -/
theorem diarization_degrades_gracefully_witness :
    ((none : Option String) = none ∧ (none : Option String) = none) ∧
      ((WhisperXTranscriber.load_diarization_model none none
          (.ok { use_auth_token := "t" })).1 = false ∧
       (WhisperXTranscriber.load_diarization_model none none
          (.ok { use_auth_token := "t" })).2.1 = none ∧
       (WhisperXTranscriber.load_diarization_model none none
          (.ok { use_auth_token := "t" })).2.2 ≠ [] ∧
       WhisperXTranscriber.transcribe
           (WhisperXTranscriber.load_diarization_model none none
             (.ok { use_auth_token := "t" })).2.1 true none [c8seg] id =
         WhisperXTranscriber.formatOutput none [c8seg]) :=
  ⟨⟨rfl, rfl⟩,
    diarization_degrades_gracefully none none (.ok { use_auth_token := "t" })
      none [c8seg] id (Or.inl ⟨rfl, rfl⟩)⟩

/-! ## The two-segment scenario (C9) -/

/-- First scenario segment: `{start:0, end:1, text:"hi", score:0.9}`. -/
def c9seg1 : RawSegment :=
  { start := 0, «end» := 1, text := "hi", score := some (9/10),
    confidence := none, words := none, speaker := none }

/-- Second scenario segment: `{start:1, end:2, text:"there", score:0.7}`. -/
def c9seg2 : RawSegment :=
  { start := 1, «end» := 2, text := "there", score := some (7/10),
    confidence := none, words := none, speaker := none }

/-- C9 as frozen is false on the code: the document
`whisperx_processor.transcribe_audio` assembles for the scenario input has
confidence `0.8` but its schema carries no `speakers` key, so it does not
have an empty `speakers` list. -/
theorem scenario_claim_counterexample :
    ¬ ( (transcribe_audio none [c9seg1, c9seg2]).toJson.lookup "confidence" =
          some (Json.num (4/5)) ∧
        (transcribe_audio none [c9seg1, c9seg2]).toJson.lookup "speakers" =
          some (Json.arr []) ) := by
  intro h
  have h2 := h.2
  have hnone : (transcribe_audio none [c9seg1, c9seg2]).toJson.lookup "speakers" =
      none := rfl
  rw [hnone] at h2
  exact Option.noConfusion h2

/-- C9 amended: for the scenario input the `whisperx_processor.py` document
has confidence exactly `0.8`, and its schema has no top-level `speakers`
key (the speakers list is absent, not empty). -/
theorem scenario_two_segments :
    (transcribe_audio none [c9seg1, c9seg2]).confidence = 4/5 ∧
      (transcribe_audio none [c9seg1, c9seg2]).toJson.lookup "speakers" = none := by
  refine ⟨?_, rfl⟩
  show (if (([c9seg1, c9seg2].foldl procSegStep []).isEmpty : Bool) then (0 : ℚ)
        else ((([c9seg1, c9seg2].foldl procSegStep []).map fun s => s.confidence).sum) /
          ((([c9seg1, c9seg2].foldl procSegStep []).length : ℚ))) = 4/5
  norm_num [procSegStep, c9seg1, c9seg2]

/-! ## The plain-Whisper script ignores diarization flags (C10) -/

/-- The command-line arguments of `whisper_simple.py` (`main`): the last
five are accepted for compatibility but never read after parsing. -/
structure SimpleArgs where
  input : String
  output : Option String
  model : String
  language : Option String
  device : String
  no_diarization : Bool
  min_speakers : Option Nat
  max_speakers : Option Nat
  hf_token : Option String
deriving Repr

/-- The document assembled by one `whisper_simple.py` run: `main` forwards
only the input path and `language` to the external call whose result is
`result`; the assembly itself reads nothing from the arguments. -/
def simple_run (_args : SimpleArgs) (result : RawResult) : SimpleDoc :=
  SimpleWhisperTranscriber.transcribe result

/-- C10: the `whisper_simple.py` document always carries an empty `speakers`
list, and changing any of the diarization-related compatibility flags
(`--device`, `--no-diarization`, `--min-speakers`, `--max-speakers`,
`--hf-token`) leaves the assembled document unchanged. -/
theorem simple_speakers_always_empty (args : SimpleArgs) (result : RawResult)
    (d : String) (nd : Bool) (mn mx : Option Nat) (tok : Option String) :
    (simple_run args result).toJson.lookup "speakers" = some (Json.arr []) ∧
      simple_run { args with
                   device := d
                   no_diarization := nd
                   min_speakers := mn
                   max_speakers := mx
                   hf_token := tok } result = simple_run args result :=
  ⟨rfl, rfl⟩
